import Mathlib

/-!
Shallow embedding of the `arena` crate (src/lib.rs): a fixed-capacity bump
allocator.  Machine integers (`usize`) are modelled as `Nat` with the
platform bounds (`usizeMax`, `isizeMax`) made explicit where the source
checks them; `Option` models Rust's `Result`/`Option` failure paths
(`AllocError` / `LayoutError` become `none`).  The `offset : Cell<usize>`
field is modelled by explicit state passing: every method returns its
post-state `Arena` next to its result.
-/

namespace ArenaModel

/-- Maximum value of the 64-bit `usize` type. -/
def usizeMax : Nat := 18446744073709551615

/-- Maximum value of the 64-bit `isize` type; `std::alloc::Layout` caps every
(rounded-up) layout size at this bound. -/
def isizeMax : Nat := 9223372036854775807

/-- Embeds `std::alloc::Layout`: a size in bytes and an alignment.  A
well-formed Rust `Layout` has a nonzero power-of-two alignment and a size
whose round-up to the alignment stays at most `isizeMax`; theorems take the
bounds they need as explicit hypotheses. -/
structure Layout where
  size : Nat
  align : Nat
deriving DecidableEq, Repr

/-- Embeds `usize::checked_sub`. -/
def checkedSub (a b : Nat) : Option Nat :=
  if b ≤ a then some (a - b) else none

/-- Embeds the `Arena` struct: `base` is `allocation.as_ptr() as usize`,
`capacity` is `allocation.len()` (the `Box<[u8]>` length fixed at
construction), and `offset` is the current value of the `offset` Cell. -/
structure Arena where
  base : Nat
  capacity : Nat
  offset : Nat
deriving DecidableEq, Repr

/-- Embeds `Arena::padding` (src/lib.rs lines 42-51): the number of filler
bytes needed before a block of layout `l` placed at the current cursor, or
`none` when padding plus size does not fit in the remaining capacity. -/
def Arena.padding (a : Arena) (l : Layout) : Option Nat :=
  let req_size := l.size
  let ptr := a.base + a.offset
  let pad := (l.align - ptr % l.align) % l.align
  match checkedSub (a.capacity - a.offset) pad with
  | none => none
  | some rem_size => if rem_size < req_size then none else some pad

/-- Embeds the `NonNull<[u8]>` fat pointer returned by `allocate`: a start
address and a length in bytes. -/
structure Block where
  start : Nat
  size : Nat
deriving DecidableEq, Repr

/-- Embeds `<&Arena as Allocator>::allocate` (src/lib.rs lines 55-71).  On
success the block starts at `base + offset + padding`, spans `l.size` bytes,
and the `offset` Cell is set to `offset + padding + size`; on failure
(`AllocError`, modelled `none`) the state is returned unchanged. -/
def Arena.allocate (a : Arena) (l : Layout) : Option Block × Arena :=
  match a.padding l with
  | none => (none, a)
  | some pad =>
      (some { start := a.base + a.offset + pad, size := l.size },
       { a with offset := a.offset + pad + l.size })

/-- Embeds `Arena::can_fit` (src/lib.rs lines 31-33); the `l` argument stands
for `Layout::new::<T>()`.  The method body only reads the `offset` Cell
(through `padding`), so the post-state is the input state. -/
def Arena.can_fit (a : Arena) (l : Layout) : Bool × Arena :=
  ((a.padding l).isSome, a)

/-- Embeds `Layout::pad_to_align`: rounds the size up to the next multiple of
the alignment (for a power-of-two alignment the source's mask arithmetic
computes exactly this forward shift). -/
def Layout.pad_to_align (l : Layout) : Layout :=
  { size := l.size + (l.align - l.size % l.align) % l.align, align := l.align }

/-- Embeds `Layout::repeat`: the layout of `n` consecutive copies together
with the stride.  Fails when `padded_size * n` overflows `usize`
(`checked_mul`) or exceeds the `isizeMax` cap that `Layout::from_size_align`
enforces; the power-of-two alignment check of `from_size_align` always passes
because the alignment comes from an already well-formed `Layout`. -/
def Layout.repeat (l : Layout) (n : Nat) : Option (Layout × Nat) :=
  let padded := l.pad_to_align
  if padded.size * n ≤ usizeMax then
    if padded.size * n ≤ isizeMax - (padded.align - 1) then
      some ({ size := padded.size * n, align := padded.align }, padded.size)
    else none
  else none

/-- Embeds `Arena::can_fit_slice` (src/lib.rs lines 34-40); the `l` argument
stands for `Layout::new::<T>()`.  Only reads the `offset` Cell, so the
post-state is the input state. -/
def Arena.can_fit_slice (a : Arena) (l : Layout) (n : Nat) : Bool × Arena :=
  (((Layout.repeat l n).bind fun q => a.padding q.1).isSome, a)

/-- Embeds `Arena::with_capacity` (src/lib.rs lines 16-29).
`Layout::array::<u8>(capacity)` fails exactly when `capacity` exceeds
`isizeMax` (the maximum array layout for align-1 elements); that failure is
mapped to `AllocError` (`none`).  `rawPtr` is the address returned by
`std::alloc::alloc` for that layout, with `0` standing for a null pointer
(the raw request could not be satisfied); the source builds the `Box<[u8]>`
from this pointer without ever inspecting it, so the function succeeds no
matter what `rawPtr` is. -/
def with_capacity (capacity : Nat) (rawPtr : Nat) : Option Arena :=
  if capacity ≤ isizeMax then
    some { base := rawPtr, capacity := capacity, offset := 0 }
  else none

/-- Runs a sequence of `allocate` requests, threading the Arena state. -/
def runAllocs (a : Arena) : List Layout → Arena
  | [] => a
  | l :: ls => runAllocs (a.allocate l).2 ls

/-- The `padding + size` cost of each successful request in a sequence
(failed requests contribute nothing, matching the unchanged cursor). -/
def allocCosts (a : Arena) : List Layout → List Nat
  | [] => []
  | l :: ls =>
    match a.padding l with
    | none => allocCosts (a.allocate l).2 ls
    | some p => (p + l.size) :: allocCosts (a.allocate l).2 ls

/-- The blocks returned by the successful requests in a sequence. -/
def allocBlocks (a : Arena) : List Layout → List Block
  | [] => []
  | l :: ls => ((a.allocate l).1).toList ++ allocBlocks (a.allocate l).2 ls

/-! ### Helper lemmas -/

/-- Characterisation of a successful padding computation. -/
theorem padding_eq_some_iff (a : Arena) (l : Layout) (p : Nat) :
    a.padding l = some p ↔
      p = (l.align - (a.base + a.offset) % l.align) % l.align ∧
      p ≤ a.capacity - a.offset ∧ l.size ≤ a.capacity - a.offset - p := by
  simp only [Arena.padding, checkedSub]
  split
  · rename_i heq
    by_cases h1 : (l.align - (a.base + a.offset) % l.align) % l.align ≤ a.capacity - a.offset
    · rw [if_pos h1] at heq; cases heq
    · constructor
      · intro h; cases h
      · rintro ⟨rfl, h2, _⟩; exact absurd h2 h1
  · rename_i rem heq
    by_cases h1 : (l.align - (a.base + a.offset) % l.align) % l.align ≤ a.capacity - a.offset
    · rw [if_pos h1] at heq
      injection heq with heq
      subst heq
      by_cases h2 :
          a.capacity - a.offset - (l.align - (a.base + a.offset) % l.align) % l.align < l.size
      · rw [if_pos h2]
        constructor
        · intro h; cases h
        · rintro ⟨rfl, _, h3⟩; omega
      · rw [if_neg h2]
        constructor
        · intro h; injection h with h; exact ⟨h.symm, h ▸ h1, by omega⟩
        · rintro ⟨rfl, _, _⟩; rfl
    · rw [if_neg h1] at heq; cases heq

/-- Characterisation of a failing padding computation: the remaining capacity
is smaller than the padding, or what is left after the padding is smaller
than the requested size. -/
theorem padding_eq_none_iff (a : Arena) (l : Layout) :
    a.padding l = none ↔
      a.capacity - a.offset < (l.align - (a.base + a.offset) % l.align) % l.align ∨
      a.capacity - a.offset - (l.align - (a.base + a.offset) % l.align) % l.align < l.size := by
  constructor
  · intro h
    by_contra hc
    push_neg at hc
    have : a.padding l =
        some ((l.align - (a.base + a.offset) % l.align) % l.align) :=
      (padding_eq_some_iff a l _).mpr ⟨rfl, by omega, by omega⟩
    rw [h] at this
    cases this
  · intro h
    cases hp : a.padding l with
    | none => rfl
    | some p =>
        have := (padding_eq_some_iff a l p).mp hp
        omega

/-- A successful padding computation returns the alignment-shift formula. -/
theorem padding_some_val (a : Arena) (l : Layout) (p : Nat)
    (h : a.padding l = some p) :
    p = (l.align - (a.base + a.offset) % l.align) % l.align :=
  ((padding_eq_some_iff a l p).mp h).1

/-- Unfolding `allocate` on a successful padding computation. -/
theorem allocate_of_padding (a : Arena) (l : Layout) (p : Nat)
    (h : a.padding l = some p) :
    a.allocate l = (some { start := a.base + a.offset + p, size := l.size },
       { a with offset := a.offset + p + l.size }) := by
  unfold Arena.allocate
  rw [h]

/-- Unfolding `allocate` on a failing padding computation. -/
theorem allocate_of_padding_none (a : Arena) (l : Layout)
    (h : a.padding l = none) :
    a.allocate l = (none, a) := by
  unfold Arena.allocate
  rw [h]

/-- `allocate` never changes the buffer base address. -/
theorem allocate_base (a : Arena) (l : Layout) :
    ((a.allocate l).2).base = a.base := by
  unfold Arena.allocate
  cases a.padding l <;> rfl

/-- `allocate` never changes the capacity. -/
theorem allocate_capacity (a : Arena) (l : Layout) :
    ((a.allocate l).2).capacity = a.capacity := by
  unfold Arena.allocate
  cases a.padding l <;> rfl

/-- The cursor never decreases across one `allocate` call. -/
theorem allocate_offset_le (a : Arena) (l : Layout) :
    a.offset ≤ ((a.allocate l).2).offset := by
  unfold Arena.allocate
  cases a.padding l with
  | none => exact Nat.le_refl _
  | some p => exact Nat.le_add_right_of_le (Nat.le_add_right _ _)

/-- A successful padding computation leaves `offset + padding + size` within
capacity. -/
theorem padding_fits (a : Arena) (l : Layout) (p : Nat)
    (h : a.padding l = some p) (hinv : a.offset ≤ a.capacity) :
    a.offset + p + l.size ≤ a.capacity := by
  have := (padding_eq_some_iff a l p).mp h
  omega

/-- One `allocate` call preserves the cursor-within-capacity invariant. -/
theorem allocate_offset_le_capacity (a : Arena) (l : Layout)
    (hinv : a.offset ≤ a.capacity) :
    ((a.allocate l).2).offset ≤ a.capacity := by
  cases hp : a.padding l with
  | none => rw [allocate_of_padding_none a l hp]; exact hinv
  | some p =>
      rw [allocate_of_padding a l p hp]
      exact padding_fits a l p hp hinv

/-- `runAllocs` never changes the buffer base address. -/
theorem runAllocs_base : ∀ (ls : List Layout) (a : Arena),
    (runAllocs a ls).base = a.base := by
  intro ls
  induction ls with
  | nil => intro a; rfl
  | cons l ls ih =>
      intro a
      rw [runAllocs, ih, allocate_base]

/-- `runAllocs` never changes the capacity. -/
theorem runAllocs_capacity : ∀ (ls : List Layout) (a : Arena),
    (runAllocs a ls).capacity = a.capacity := by
  intro ls
  induction ls with
  | nil => intro a; rfl
  | cons l ls ih =>
      intro a
      rw [runAllocs, ih, allocate_capacity]

/-- The cursor never decreases across a sequence of requests. -/
theorem runAllocs_offset_le : ∀ (ls : List Layout) (a : Arena),
    a.offset ≤ (runAllocs a ls).offset := by
  intro ls
  induction ls with
  | nil => intro a; exact Nat.le_refl _
  | cons l ls ih =>
      intro a
      rw [runAllocs]
      exact Nat.le_trans (allocate_offset_le a l) (ih _)

/-- A sequence of requests preserves the cursor-within-capacity invariant. -/
theorem runAllocs_offset_le_capacity : ∀ (ls : List Layout) (a : Arena),
    a.offset ≤ a.capacity → (runAllocs a ls).offset ≤ a.capacity := by
  intro ls
  induction ls with
  | nil => intro a h; exact h
  | cons l ls ih =>
      intro a h
      rw [runAllocs]
      have h2 := allocate_offset_le_capacity a l h
      have h3 := allocate_capacity a l
      exact h3 ▸ ih _ (h3 ▸ h2)

/-- The cursor after a sequence of requests is the initial cursor plus the
sum of `padding + size` over the successful requests. -/
theorem runAllocs_offset_eq : ∀ (ls : List Layout) (a : Arena),
    (runAllocs a ls).offset = a.offset + (allocCosts a ls).sum := by
  intro ls
  induction ls with
  | nil => intro a; simp [runAllocs, allocCosts]
  | cons l ls ih =>
      intro a
      rw [runAllocs, allocCosts]
      cases hp : a.padding l with
      | none =>
          rw [allocate_of_padding_none a l hp]
          simpa using ih a
      | some p =>
          rw [allocate_of_padding a l p hp]
          rw [ih]
          simp
          omega

/-- Adding the forward shift `(k - x % k) % k` to `x` lands on a multiple of
`k`. -/
theorem add_shift_mod (x k : Nat) (h : 0 < k) :
    (x + (k - x % k) % k) % k = 0 := by
  rcases Nat.eq_zero_or_pos (x % k) with h0 | hpos
  · rw [h0, Nat.sub_zero, Nat.mod_self, Nat.add_zero]
    exact h0
  · have hlt : x % k < k := Nat.mod_lt _ h
    have hsh : (k - x % k) % k = k - x % k := Nat.mod_eq_of_lt (by omega)
    rw [hsh]
    have hdm := Nat.div_add_mod x k
    have hx : x + (k - x % k) = k * (x / k + 1) := by
      rw [Nat.mul_add, Nat.mul_one]
      omega
    rw [hx, Nat.mul_mod_right]

/-- Every block produced by a trace starts at or after the trace's starting
cursor position. -/
theorem allocBlocks_start_ge : ∀ (ls : List Layout) (a : Arena) (b : Block),
    b ∈ allocBlocks a ls → a.base + a.offset ≤ b.start := by
  intro ls
  induction ls with
  | nil => intro a b hb; cases hb
  | cons l ls ih =>
      intro a b hb
      rw [allocBlocks] at hb
      cases hp : a.padding l with
      | none =>
          rw [allocate_of_padding_none a l hp] at hb
          simp only [Option.toList_none, List.nil_append] at hb
          exact ih a b hb
      | some p =>
          rw [allocate_of_padding a l p hp] at hb
          simp only [Option.toList_some, List.cons_append, List.nil_append,
            List.mem_cons] at hb
          cases hb with
          | inl h => subst h; exact Nat.le_add_right _ _
          | inr h =>
              have := ih _ b h
              simp only at this
              omega

/-- Blocks appear in the trace in strictly increasing address order: each
block ends at or before the next one starts. -/
theorem allocBlocks_pairwise : ∀ (ls : List Layout) (a : Arena),
    (allocBlocks a ls).Pairwise (fun b c => b.start + b.size ≤ c.start) := by
  intro ls
  induction ls with
  | nil => intro a; exact List.Pairwise.nil
  | cons l ls ih =>
      intro a
      rw [allocBlocks]
      cases hp : a.padding l with
      | none =>
          rw [allocate_of_padding_none a l hp]
          simpa using ih a
      | some p =>
          rw [allocate_of_padding a l p hp]
          simp only [Option.toList_some, List.cons_append, List.nil_append]
          refine List.Pairwise.cons ?_ (ih _)
          intro c hc
          have := allocBlocks_start_ge ls _ c hc
          dsimp only at this ⊢
          omega

/-! ### Claims -/

/-- C1: for every successful call to `allocate(size, alignment)` on an Arena
with cursor `c` and computed padding `p`, the returned block starts at
`buffer_base + c + p`, has exactly `size` bytes, and the cursor is advanced
to `c + p + size`; no Arena state other than the cursor is changed (base and
capacity stay the same). -/
theorem allocate_success_spec (a : Arena) (l : Layout) (p : Nat)
    (h : a.padding l = some p) :
    (a.allocate l).1 = some { start := a.base + a.offset + p, size := l.size } ∧
    ((a.allocate l).2).offset = a.offset + p + l.size ∧
    ((a.allocate l).2).base = a.base ∧
    ((a.allocate l).2).capacity = a.capacity := by
  rw [allocate_of_padding a l p h]
  exact ⟨rfl, rfl, rfl, rfl⟩

/-- Witness for `allocate_success_spec`: arena at base 1000, capacity 24,
cursor 1, allocating a 16-byte 16-aligned value (padding 7). -/
theorem allocate_success_spec_witness :
    Arena.padding ⟨1000, 24, 1⟩ ⟨16, 16⟩ = some 7 ∧
    ((Arena.allocate ⟨1000, 24, 1⟩ ⟨16, 16⟩).1 = some { start := 1008, size := 16 } ∧
     ((Arena.allocate ⟨1000, 24, 1⟩ ⟨16, 16⟩).2).offset = 24 ∧
     ((Arena.allocate ⟨1000, 24, 1⟩ ⟨16, 16⟩).2).base = 1000 ∧
     ((Arena.allocate ⟨1000, 24, 1⟩ ⟨16, 16⟩).2).capacity = 24) :=
  ⟨by decide, by
    have h := allocate_success_spec ⟨1000, 24, 1⟩ ⟨16, 16⟩ 7 (by decide)
    simpa using h⟩

/-- C2: the padding computation returns (when it succeeds)
`(align - ((base + cursor) % align)) % align`, which is 0 when the candidate
address is already aligned, and it fails exactly when
`capacity - cursor < padding` or `(capacity - cursor) - padding < size`. -/
theorem padding_spec (a : Arena) (l : Layout) (h : 0 < l.align) :
    (a.padding l = none ∨
      a.padding l = some ((l.align - (a.base + a.offset) % l.align) % l.align)) ∧
    ((a.base + a.offset) % l.align = 0 →
      (l.align - (a.base + a.offset) % l.align) % l.align = 0) ∧
    (a.padding l = none ↔
      a.capacity - a.offset < (l.align - (a.base + a.offset) % l.align) % l.align ∨
      a.capacity - a.offset - (l.align - (a.base + a.offset) % l.align) % l.align
        < l.size) := by
  refine ⟨?_, ?_, padding_eq_none_iff a l⟩
  · cases hp : a.padding l with
    | none => exact Or.inl rfl
    | some p => exact Or.inr (by rw [← padding_some_val a l p hp])
  · intro h0
    rw [h0, Nat.sub_zero, Nat.mod_self]

/-- Witness for `padding_spec`: arena at base 0, capacity 8, cursor 0,
4-byte 4-aligned request (already aligned, padding 0). -/
theorem padding_spec_witness :
    0 < 4 ∧
    ((Arena.padding ⟨0, 8, 0⟩ ⟨4, 4⟩ = none ∨
      Arena.padding ⟨0, 8, 0⟩ ⟨4, 4⟩ = some ((4 - (0 + 0) % 4) % 4)) ∧
     ((0 + 0) % 4 = 0 → (4 - (0 + 0) % 4) % 4 = 0) ∧
     (Arena.padding ⟨0, 8, 0⟩ ⟨4, 4⟩ = none ↔
       8 - 0 < (4 - (0 + 0) % 4) % 4 ∨ 8 - 0 - (4 - (0 + 0) % 4) % 4 < 4)) :=
  ⟨by decide, padding_spec ⟨0, 8, 0⟩ ⟨4, 4⟩ (by decide)⟩

/-- C3: across any sequence of allocation requests the invariant
`0 ≤ cursor ≤ capacity` is preserved, the cursor never decreases, base and
capacity never change, and the final cursor is the initial cursor plus the
sum of `padding + size` over the successful requests; applied to every
prefix of a trace starting at cursor 0, the cursor always equals that
running sum. -/
theorem cursor_invariant (a : Arena) (ls : List Layout)
    (hinv : a.offset ≤ a.capacity) :
    0 ≤ (runAllocs a ls).offset ∧
    (runAllocs a ls).offset ≤ a.capacity ∧
    a.offset ≤ (runAllocs a ls).offset ∧
    (runAllocs a ls).base = a.base ∧
    (runAllocs a ls).capacity = a.capacity ∧
    (runAllocs a ls).offset = a.offset + (allocCosts a ls).sum :=
  ⟨Nat.zero_le _, runAllocs_offset_le_capacity ls a hinv, runAllocs_offset_le ls a,
   runAllocs_base ls a, runAllocs_capacity ls a, runAllocs_offset_eq ls a⟩

/-- Witness for `cursor_invariant`: two 4-byte 4-aligned allocations in a
16-byte arena. -/
theorem cursor_invariant_witness :
    Arena.offset ⟨0, 16, 0⟩ ≤ Arena.capacity ⟨0, 16, 0⟩ ∧
    (0 ≤ (runAllocs ⟨0, 16, 0⟩ [⟨4, 4⟩, ⟨4, 4⟩]).offset ∧
     (runAllocs ⟨0, 16, 0⟩ [⟨4, 4⟩, ⟨4, 4⟩]).offset ≤ 16 ∧
     0 ≤ (runAllocs ⟨0, 16, 0⟩ [⟨4, 4⟩, ⟨4, 4⟩]).offset ∧
     (runAllocs ⟨0, 16, 0⟩ [⟨4, 4⟩, ⟨4, 4⟩]).base = 0 ∧
     (runAllocs ⟨0, 16, 0⟩ [⟨4, 4⟩, ⟨4, 4⟩]).capacity = 16 ∧
     (runAllocs ⟨0, 16, 0⟩ [⟨4, 4⟩, ⟨4, 4⟩]).offset =
       0 + (allocCosts ⟨0, 16, 0⟩ [⟨4, 4⟩, ⟨4, 4⟩]).sum) :=
  ⟨by decide, cursor_invariant ⟨0, 16, 0⟩ [⟨4, 4⟩, ⟨4, 4⟩] (by decide)⟩

/-- C4: if `allocate` fails it leaves the Arena (in particular the cursor)
unchanged, and the failure happens exactly under the padding computation's
does-not-fit conditions. -/
theorem allocate_failure_spec (a : Arena) (l : Layout) :
    ((a.allocate l).1 = none → (a.allocate l).2 = a) ∧
    ((a.allocate l).1 = none ↔
      a.capacity - a.offset < (l.align - (a.base + a.offset) % l.align) % l.align ∨
      a.capacity - a.offset - (l.align - (a.base + a.offset) % l.align) % l.align
        < l.size) := by
  have hiff : (a.allocate l).1 = none ↔ a.padding l = none := by
    cases hp : a.padding l with
    | none => rw [allocate_of_padding_none a l hp]; simp
    | some p => rw [allocate_of_padding a l p hp]; simp
  constructor
  · intro h
    rw [allocate_of_padding_none a l (hiff.mp h)]
  · exact hiff.trans (padding_eq_none_iff a l)

/-- Witness for `allocate_failure_spec`: an 8-byte request in a 4-byte
arena fails and leaves the state unchanged. -/
theorem allocate_failure_spec_witness :
    ((Arena.allocate ⟨0, 4, 0⟩ ⟨8, 1⟩).1 = none → (Arena.allocate ⟨0, 4, 0⟩ ⟨8, 1⟩).2 = ⟨0, 4, 0⟩) ∧
    ((Arena.allocate ⟨0, 4, 0⟩ ⟨8, 1⟩).1 = none ↔
      4 - 0 < (1 - (0 + 0) % 1) % 1 ∨ 4 - 0 - (1 - (0 + 0) % 1) % 1 < 8) :=
  allocate_failure_spec ⟨0, 4, 0⟩ ⟨8, 1⟩

/-- C5: `can_fit` returns true exactly when an immediately following
`allocate` with the same layout would succeed, and evaluating it does not
change the Arena state (in particular the cursor). -/
theorem can_fit_spec (a : Arena) (l : Layout) :
    (a.can_fit l).2 = a ∧
    ((a.can_fit l).1 = true ↔ ((a.allocate l).1).isSome = true) := by
  refine ⟨rfl, ?_⟩
  unfold Arena.can_fit Arena.allocate
  cases a.padding l <;> simp

/-- Witness for `can_fit_spec` at a concrete arena and layout. -/
theorem can_fit_spec_witness :
    (Arena.can_fit ⟨1000, 24, 0⟩ ⟨1, 1⟩).2 = ⟨1000, 24, 0⟩ ∧
    ((Arena.can_fit ⟨1000, 24, 0⟩ ⟨1, 1⟩).1 = true ↔
      ((Arena.allocate ⟨1000, 24, 0⟩ ⟨1, 1⟩).1).isSome = true) :=
  can_fit_spec ⟨1000, 24, 0⟩ ⟨1, 1⟩

/-- C6: every block issued by a successful `allocate` call has a start
address that is a multiple of the requested alignment. -/
theorem allocate_aligned (a : Arena) (l : Layout) (b : Block)
    (h : 0 < l.align) (hb : (a.allocate l).1 = some b) :
    b.start % l.align = 0 := by
  cases hp : a.padding l with
  | none => rw [allocate_of_padding_none a l hp] at hb; cases hb
  | some p =>
      rw [allocate_of_padding a l p hp] at hb
      injection hb with hb
      subst hb
      dsimp only
      rw [padding_some_val a l p hp]
      exact add_shift_mod (a.base + a.offset) l.align h

/-- Witness for `allocate_aligned`: the 16-aligned block issued at cursor 1
of a base-1000 arena starts at 1008, a multiple of 16. -/
theorem allocate_aligned_witness :
    0 < 16 ∧
    (Arena.allocate ⟨1000, 24, 1⟩ ⟨16, 16⟩).1 = some ⟨1008, 16⟩ ∧
    Block.start ⟨1008, 16⟩ % 16 = 0 :=
  ⟨by decide, by decide,
    allocate_aligned ⟨1000, 24, 1⟩ ⟨16, 16⟩ ⟨1008, 16⟩ (by decide) (by decide)⟩

/-- C7: any two blocks issued at distinct positions of one Arena's
allocation trace have non-overlapping byte ranges. -/
theorem blocks_disjoint (a : Arena) (ls : List Layout) (i j : Nat)
    (hi : i < (allocBlocks a ls).length) (hj : j < (allocBlocks a ls).length)
    (hne : i ≠ j) :
    ((allocBlocks a ls).get ⟨i, hi⟩).start + ((allocBlocks a ls).get ⟨i, hi⟩).size ≤
        ((allocBlocks a ls).get ⟨j, hj⟩).start ∨
    ((allocBlocks a ls).get ⟨j, hj⟩).start + ((allocBlocks a ls).get ⟨j, hj⟩).size ≤
        ((allocBlocks a ls).get ⟨i, hi⟩).start := by
  have hp := allocBlocks_pairwise ls a
  rw [List.pairwise_iff_get] at hp
  rcases Nat.lt_or_ge i j with hlt | hge
  · exact Or.inl (hp ⟨i, hi⟩ ⟨j, hj⟩ (Fin.mk_lt_mk.mpr hlt))
  · exact Or.inr (hp ⟨j, hj⟩ ⟨i, hi⟩ (Fin.mk_lt_mk.mpr (by omega)))

/-- Witness for `blocks_disjoint`: the two blocks of the two-allocation
trace in a 16-byte arena occupy bytes 0-3 and 4-7. -/
theorem blocks_disjoint_witness :
    0 < (allocBlocks ⟨0, 16, 0⟩ [⟨4, 4⟩, ⟨4, 4⟩]).length ∧
    1 < (allocBlocks ⟨0, 16, 0⟩ [⟨4, 4⟩, ⟨4, 4⟩]).length ∧
    (0 : Nat) ≠ 1 ∧
    ((0 : Nat) + 4 ≤ 4 ∨ 4 + 4 ≤ 0) :=
  ⟨by decide, by decide, by decide,
    blocks_disjoint ⟨0, 16, 0⟩ [⟨4, 4⟩, ⟨4, 4⟩] 0 1 (by decide) (by decide) (by decide)⟩

/-- C8 (code bug evidence): when the raw allocation cannot be satisfied
(`std::alloc::alloc` returns a null pointer, modelled `rawPtr = 0`),
`with_capacity 1` still returns an Arena built over that null pointer
instead of failing with an allocation error: the source never inspects the
pointer returned by the raw allocator. -/
theorem with_capacity_ignores_alloc_failure :
    with_capacity 1 0 = some { base := 0, capacity := 1, offset := 0 } := by
  decide

/-- C9: `can_fit_slice` never changes the Arena state; for an element layout
as Rust guarantees it (size a multiple of the alignment), whenever
`n * size` stays within the layout size cap the query reports exactly
whether allocating `n * size` bytes at the element alignment would currently
succeed, and when the total size computation overflows that cap it returns
false. -/
theorem can_fit_slice_spec (a : Arena) (l : Layout) (n : Nat)
    (ha : 0 < l.align) (hsz : l.size % l.align = 0) :
    (a.can_fit_slice l n).2 = a ∧
    (l.size * n ≤ isizeMax - (l.align - 1) →
      ((a.can_fit_slice l n).1 = true ↔
        ((a.allocate { size := l.size * n, align := l.align }).1).isSome = true)) ∧
    (isizeMax - (l.align - 1) < l.size * n →
      (a.can_fit_slice l n).1 = false) := by
  have hpad : l.pad_to_align = l := by
    unfold Layout.pad_to_align
    rw [hsz, Nat.sub_zero, Nat.mod_self, Nat.add_zero]
  have hmaxle : isizeMax - (l.align - 1) ≤ usizeMax := by
    have : isizeMax ≤ usizeMax := by decide
    omega
  refine ⟨rfl, ?_, ?_⟩
  · intro hle
    unfold Arena.can_fit_slice Layout.repeat
    rw [hpad]
    rw [if_pos (Nat.le_trans hle hmaxle), if_pos hle]
    rw [Option.some_bind]
    cases hp : a.padding { size := l.size * n, align := l.align } with
    | none => rw [allocate_of_padding_none a _ hp]; simp [hp]
    | some p => rw [allocate_of_padding a _ p hp]; simp [hp]
  · intro hgt
    unfold Arena.can_fit_slice Layout.repeat
    rw [hpad]
    by_cases hu : l.size * n ≤ usizeMax
    · rw [if_pos hu, if_neg (by omega)]
      rfl
    · rw [if_neg hu]
      rfl

/-- Witness for `can_fit_slice_spec`: 24 one-byte elements in a 24-byte
arena. -/
theorem can_fit_slice_spec_witness :
    0 < 1 ∧ 1 % 1 = 0 ∧
    ((Arena.can_fit_slice ⟨1000, 24, 0⟩ ⟨1, 1⟩ 24).2 = ⟨1000, 24, 0⟩ ∧
     (1 * 24 ≤ isizeMax - (1 - 1) →
       ((Arena.can_fit_slice ⟨1000, 24, 0⟩ ⟨1, 1⟩ 24).1 = true ↔
         ((Arena.allocate ⟨1000, 24, 0⟩ { size := 1 * 24, align := 1 }).1).isSome = true)) ∧
     (isizeMax - (1 - 1) < 1 * 24 →
       (Arena.can_fit_slice ⟨1000, 24, 0⟩ ⟨1, 1⟩ 24).1 = false)) :=
  ⟨by decide, by decide,
    can_fit_slice_spec ⟨1000, 24, 0⟩ ⟨1, 1⟩ 24 (by decide) (by decide)⟩

/-- C10: `can_fit_slice` with count 0 returns true exactly when the
alignment padding computed for the element alignment at the current cursor
is at most `capacity - cursor`; in particular it always returns true for
alignment 1. -/
theorem can_fit_slice_zero (a : Arena) (l : Layout) (ha : 0 < l.align) :
    ((a.can_fit_slice l 0).1 = true ↔
      (l.align - (a.base + a.offset) % l.align) % l.align ≤ a.capacity - a.offset) ∧
    (l.align = 1 → (a.can_fit_slice l 0).1 = true) := by
  have hrep : Layout.repeat l 0 = some ({ size := 0, align := l.align }, l.pad_to_align.size) := by
    unfold Layout.repeat
    rw [if_pos (by simp [usizeMax]), if_pos (by simp)]
    simp [Layout.pad_to_align]
  have hmain : (a.can_fit_slice l 0).1 = true ↔
      (l.align - (a.base + a.offset) % l.align) % l.align ≤ a.capacity - a.offset := by
    unfold Arena.can_fit_slice
    rw [hrep, Option.some_bind, Option.isSome_iff_ne_none, ne_eq,
      padding_eq_none_iff]
    dsimp only
    constructor
    · intro h
      by_contra hc
      exact h (Or.inl (by omega))
    · intro h hc
      rcases hc with hc | hc
      · omega
      · exact absurd hc (Nat.not_lt_zero _)
  refine ⟨hmain, ?_⟩
  intro h1
  rw [hmain, h1]
  simp [Nat.mod_one]

/-- Witness for `can_fit_slice_zero`: a zero-length slice of 2-aligned
elements at cursor 5 of a base-1000, 24-byte arena (padding 1 fits). -/
theorem can_fit_slice_zero_witness :
    0 < 2 ∧
    (((Arena.can_fit_slice ⟨1000, 24, 5⟩ ⟨4, 2⟩ 0).1 = true ↔
       (2 - (1000 + 5) % 2) % 2 ≤ 24 - 5) ∧
     ((2 : Nat) = 1 → (Arena.can_fit_slice ⟨1000, 24, 5⟩ ⟨4, 2⟩ 0).1 = true)) :=
  ⟨by decide, can_fit_slice_zero ⟨1000, 24, 5⟩ ⟨4, 2⟩ (by decide)⟩
